import Mathlib

/-!
Shallow embedding of the crawl pipeline in `main.py` of the
web-scraping-data-collection repository: robots.txt policy gate,
retrying transport (`polite_get`), listing/pagination parsers
(BeautifulSoup queries over an HTML tree model), the page processor
(`process_one_page`) and the checkpointed range runner (`run_range`).

Conventions of the embedding:
- The module-level global `BASE_URL` is threaded as an explicit `base_url`
  argument (in the script it is assigned once at startup before any of the
  modelled functions run).
- Network I/O is modelled by oracles: a transport oracle maps each attempt
  number to its outcome (for `polite_get`), and per-URL oracles give the
  transport behaviour for listing and detail URLs.
- Fetched listing bodies are represented already parsed, as an HTML `Node`
  tree (the model of `BeautifulSoup(html, "lxml")`); detail bodies are kept
  as opaque strings, exactly as the program stores them.
- Time is not modelled; `polite_get` instead records the list of backoff
  sleep durations it performs (the random politeness jitter before each
  attempt is not recorded: the claims quantify only over backoff sleeps).
-/

/-! ### URL helpers (model of `urllib.parse` as used by the program)

The program only ever joins an absolute base URL (scheme://host[...]) with
either an absolute URL or a root-relative reference such as
`/home/Result?drugId=1` or `/robots.txt`; `urljoin` is modelled for the
hierarchical http(s) cases the program exercises. -/

/-! All character-level string manipulation is done on `List Char`
(structural recursion, so that every definition evaluates inside the
kernel); `String.mk`/`String.data` convert at the boundaries. -/

/-- Whether `pre` is a leading piece of `s` (Python `str.startswith`). -/
def strStartsWith (s pre : String) : Bool :=
  pre.data.isPrefixOf s.data

/-- Split a character list at the first occurrence of a (nonempty) pattern:
the part before it and the part after it. -/
def breakOnSubstr (pat : List Char) : List Char → Option (List Char × List Char)
  | [] => none
  | c :: cs =>
      if pat.isPrefixOf (c :: cs) then some ([], (c :: cs).drop pat.length)
      else
        match breakOnSubstr pat cs with
        | some (pre, post) => some (c :: pre, post)
        | none => none

/-- The scheme separator `://`. -/
def schemeSep : List Char := [':', '/', '/']

/-- The `scheme://host` part of an absolute URL (everything up to the first
slash after the scheme separator). A string without `://` is returned
unchanged. -/
def urlOrigin (u : String) : String :=
  match breakOnSubstr schemeSep u.data with
  | some (scheme, rest) =>
      String.mk (scheme ++ schemeSep ++ rest.takeWhile (fun c => c != '/'))
  | none => u

/-- The part of a URL path up to and including its last slash (used for
resolving non-rooted relative references). -/
def upToLastSlash (cs : List Char) : List Char :=
  (cs.reverse.dropWhile (fun c => c != '/')).reverse

/-- Model of `urllib.parse.urljoin base url` for the cases the program uses:
an absolute http(s) URL is returned as is, a root-relative reference is
resolved against the origin of the base, and any other relative reference
replaces the last path segment of the base. -/
def urljoin (base url : String) : String :=
  if strStartsWith url "http://" || strStartsWith url "https://" then url
  else if strStartsWith url "/" then urlOrigin base ++ url
  else
    let path :=
      match breakOnSubstr schemeSep base.data with
      | some (_, rest) => rest.dropWhile (fun c => c != '/')
      | none => base.data
    let dir := upToLastSlash path
    urlOrigin base ++ (if dir.isEmpty then "/" else String.mk dir) ++ url

/-- Model of `urllib.parse.urlparse(u).path`: the path component of a URL,
with scheme, authority, query and fragment removed. -/
def urlparsePath (u : String) : String :=
  match breakOnSubstr schemeSep u.data with
  | some (_, rest) =>
      String.mk ((rest.dropWhile (fun c => c != '/')).takeWhile
        (fun c => c != '?' && c != '#'))
  | none => String.mk (u.data.takeWhile (fun c => c != '?' && c != '#'))

/-- Model of Python's `str.rstrip("/")` (used when building the listing URL
template from the user supplied base URL). -/
def rstripSlash (s : String) : String :=
  String.mk ((s.data.reverse.dropWhile (fun c => c == '/')).reverse)

/-- Model of Python's `str.strip()` restricted to ASCII whitespace. -/
def strStrip (s : String) : String :=
  String.mk (((s.data.dropWhile Char.isWhitespace).reverse.dropWhile
    Char.isWhitespace).reverse)

/-! ### Configuration constants of `main.py` -/

def MAX_LIST_RETRIES : Nat := 3

def MAX_DETAIL_RETRIES : Nat := 3

def STOP_ON_CONSECUTIVE_LIST_FAILS : Nat := 5

/-- The backoff coefficient: the source sleeps `1.5 * attempt` seconds. -/
def backoffBase : ℚ := 3 / 2

/-- Model of `LIST_URL_TEMPLATE.format(page=page)` where the template is
`BASE_URL.rstrip('/') + "/home/DrugSearch?page=" + page`. -/
def list_url (base_url : String) (page : Nat) : String :=
  rstripSlash base_url ++ "/home/DrugSearch?page=" ++ toString page

/-! ### robots.txt policy gate

`urllib.robotparser.RobotFileParser` is standard-library code; its state
machine is embedded from CPython: `can_fetch` answers `False` when
`disallow_all` is set, `True` when `allow_all` is set, `False` when the
ruleset has never been parsed (`last_checked` unset), and otherwise
evaluates the parsed rules.  Rule evaluation itself (user-agent matching
against Allow/Disallow lines) is abstracted as a decision function, since
no claim depends on the rule syntax. -/

structure RobotFileParser where
  disallow_all : Bool
  allow_all : Bool
  /-- Whether `parse` has run (CPython: `last_checked` is nonzero). -/
  last_checked : Bool
  /-- The parsed ruleset as a decision function `ua → url → allowed`. -/
  rules : String → String → Bool

/-- A freshly constructed `RobotFileParser()`: no flags set, nothing parsed. -/
def freshRobotFileParser : RobotFileParser :=
  { disallow_all := false, allow_all := false, last_checked := false,
    rules := fun _ _ => true }

/-- CPython `RobotFileParser.can_fetch`. -/
def rpCanFetch (rp : RobotFileParser) (ua url : String) : Bool :=
  if rp.disallow_all then false
  else if rp.allow_all then true
  else if !rp.last_checked then false
  else rp.rules ua url

/-- The possible outcomes of retrieving `base_url + "/robots.txt"`:
a network-level error (`urlopen` raises a non-HTTP `URLError`), a body that
fails UTF-8 decoding, an HTTP error status, or a successfully parsed body
(abstracted to its decision function). -/
inductive RobotsFetchOutcome where
  | netError
  | decodeError
  | httpError (code : Nat)
  | content (rules : String → String → Bool)

/-- CPython `RobotFileParser.read` on the given fetch outcome: `none` means
the call raised (the exception propagates to the caller); on an HTTP error
401/403 set `disallow_all`, on another 4xx set `allow_all`, on any other
code leave the parser untouched; on content, parse it (which marks
`last_checked`). -/
def rpRead (rp : RobotFileParser) (o : RobotsFetchOutcome) : Option RobotFileParser :=
  match o with
  | .netError => none
  | .decodeError => none
  | .httpError code =>
      if code = 401 ∨ code = 403 then some { rp with disallow_all := true }
      else if 400 ≤ code ∧ code < 500 then some { rp with allow_all := true }
      else some rp
  | .content rules =>
      some { rp with last_checked := true, rules := rules }

/-- `init_robots_parser(base_url)` of `main.py`: construct a parser, try to
`read()` the robots URL, and on any exception log a warning ("Proceeding
cautiously.") and return the parser as it stands. -/
def initRobotsParserPy (o : RobotsFetchOutcome) : RobotFileParser :=
  let rp := freshRobotFileParser
  match rpRead rp o with
  | some rp2 => rp2
  | none => rp

/-- `can_fetch(rp, ua, path_or_url)` of `main.py`: resolve a relative path
against the base URL (a string starting with "http" is taken as already
absolute), then ask the parser.  The source wraps this in a
catch-everything returning `True`; in this total model `rpCanFetch` cannot
raise, so that handler is unreachable. -/
def can_fetch (rp : RobotFileParser) (ua path_or_url base_url : String) : Bool :=
  let full_path :=
    if strStartsWith path_or_url "http" then path_or_url else urljoin base_url path_or_url
  rpCanFetch rp ua full_path

/-! ### Transport: `polite_get`

One attempt either raises a network-level `RequestException` or yields a
response with a status code and a body.  `polite_get` walks attempts
`1..retries`; 429 and any 5xx status, and any network error, back off
`1.5 * attempt` seconds and retry; any other status is returned
immediately.  Exhaustion yields `none`. -/

structure HttpResponse (β : Type) where
  status : Nat
  text : β
deriving Repr, DecidableEq

inductive AttemptOutcome (β : Type) where
  | netError
  | resp (r : HttpResponse β)
deriving Repr, DecidableEq

/-- Whether the attempt outcome is treated as transient by `polite_get`
(retried with backoff). -/
def isTransientOutcome {β : Type} : AttemptOutcome β → Bool
  | .netError => true
  | .resp r => r.status == 429 || decide (500 ≤ r.status)

/-- The observable result of a `polite_get` call: the returned response (or
`none` on exhaustion), the backoff sleep durations performed in order, and
how many attempts were made. -/
structure FetchTrace (β : Type) where
  result : Option (HttpResponse β)
  sleeps : List ℚ
  attempts : Nat
deriving Repr, DecidableEq

/-- The attempt loop of `polite_get`, with `attempt` the 1-based number of
the next attempt and the second argument the attempts remaining. -/
def politeGetAux {β : Type} (t : Nat → AttemptOutcome β) (attempt : Nat) :
    Nat → FetchTrace β
  | 0 => { result := none, sleeps := [], attempts := 0 }
  | r + 1 =>
    match t attempt with
    | .netError =>
        let rest := politeGetAux t (attempt + 1) r
        { result := rest.result,
          sleeps := backoffBase * (attempt : ℚ) :: rest.sleeps,
          attempts := rest.attempts + 1 }
    | .resp resp =>
        if resp.status = 429 ∨ 500 ≤ resp.status then
          let rest := politeGetAux t (attempt + 1) r
          { result := rest.result,
            sleeps := backoffBase * (attempt : ℚ) :: rest.sleeps,
            attempts := rest.attempts + 1 }
        else
          { result := some resp, sleeps := [], attempts := 1 }

/-- `polite_get(session, url, retries)` of `main.py`, over the transport
oracle for that URL. -/
def polite_get {β : Type} (t : Nat → AttemptOutcome β) (retries : Nat) :
    FetchTrace β :=
  politeGetAux t 1 retries

/-- The backoff sleeps the spec predicts for `j` consecutive transient
attempts starting at attempt number `a`: `backoff_base * a`,
`backoff_base * (a+1)`, ... -/
def expectedBackoffs (a : Nat) : Nat → List ℚ
  | 0 => []
  | j + 1 => backoffBase * (a : ℚ) :: expectedBackoffs (a + 1) j

/-! ### HTML tree model and the BeautifulSoup queries the program uses

A parsed document is a tree of element and text nodes (`NodeList` is a
specialised list so that all tree recursions are structural).  The CSS
machinery is restricted to what the program needs: compound selectors made
of a tag name, required classes and required attributes, combined with the
descendant combinator; `select` on an element matches among its proper
descendants, in document (preorder) order, exactly as
`Tag.select` / `find_all` / `find` do. -/

mutual
inductive Node where
  | elem (tag : String) (attrs : List (String × String)) (children : NodeList)
  | text (s : String)
deriving Repr
inductive NodeList where
  | nil
  | cons (head : Node) (tail : NodeList)
deriving Repr
end

def NodeList.ofList : List Node → NodeList
  | [] => .nil
  | n :: ns => .cons n (NodeList.ofList ns)

/-- Element-node constructor taking an ordinary list of children. -/
def el (tag : String) (attrs : List (String × String)) (cs : List Node) : Node :=
  Node.elem tag attrs (NodeList.ofList cs)

/-- Text-node constructor. -/
def txt (s : String) : Node := Node.text s

/-- First value of an attribute, if present. -/
def getAttr (attrs : List (String × String)) (k : String) : Option String :=
  (attrs.find? (fun p => p.1 == k)).map (fun p => p.2)

def hasAttr (attrs : List (String × String)) (k : String) : Bool :=
  attrs.any (fun p => p.1 == k)

/-- The attribute list of a node (empty for text nodes). -/
def attrsOf : Node → List (String × String)
  | .elem _ a _ => a
  | .text _ => []

/-- Split a character list into maximal whitespace-free words. -/
def wordsAux (acc : List Char) : List Char → List (List Char)
  | [] => if acc.isEmpty then [] else [acc.reverse]
  | c :: cs =>
      if c.isWhitespace then
        if acc.isEmpty then wordsAux [] cs else acc.reverse :: wordsAux [] cs
      else wordsAux (c :: acc) cs

/-- BeautifulSoup splits the `class` attribute on whitespace into a list of
class names. -/
def classList (attrs : List (String × String)) : List String :=
  (wordsAux [] (((getAttr attrs "class").getD "").data)).map String.mk

mutual
/-- All nodes of the subtree rooted at a node, in preorder, each paired
with its ancestor chain (innermost ancestor first) relative to where the
traversal started. -/
def nodesWithAnc (anc : List Node) : Node → List (Node × List Node)
  | .text s => [(.text s, anc)]
  | .elem t a cs =>
      (.elem t a cs, anc) :: nodeListWithAnc (Node.elem t a cs :: anc) cs
def nodeListWithAnc (anc : List Node) : NodeList → List (Node × List Node)
  | .nil => []
  | .cons n ns => nodesWithAnc anc n ++ nodeListWithAnc anc ns
end

/-- The proper descendants of a node (the search scope of `Tag.select`,
`find_all` and `find`), in document order, with ancestor chains truncated
at the scope node. -/
def descendantsWithAnc : Node → List (Node × List Node)
  | .text _ => []
  | .elem _ _ cs => nodeListWithAnc [] cs

/-- A compound CSS selector: optional tag name (`""` matches any tag),
required classes, required attributes. -/
structure Sel where
  tag : String
  classes : List String
  attrsPresent : List String

/-- Whether a node matches a compound selector (text nodes never match). -/
def matchSel (sel : Sel) : Node → Bool
  | .text _ => false
  | .elem t attrs _ =>
      (sel.tag == "" || sel.tag == t)
        && sel.classes.all (fun c => (classList attrs).contains c)
        && sel.attrsPresent.all (fun k => hasAttr attrs k)

/-- Whether the ancestor chain (innermost first) contains, in order, nodes
matching the given selectors (innermost selector first), as the descendant
combinator requires. -/
def ancChainMatch : List Sel → List Node → Bool
  | [], _ => true
  | _ :: _, [] => false
  | s :: rest, a :: anc =>
      (matchSel s a && ancChainMatch rest anc) || ancChainMatch (s :: rest) anc

/-- Whether a node with the given ancestor chain matches a descendant
selector chain (outermost selector first). -/
def nodeMatchesChain (chain : List Sel) (n : Node) (anc : List Node) : Bool :=
  match chain.reverse with
  | [] => false
  | s :: rest => matchSel s n && ancChainMatch rest anc

/-- `scope.select(chain)`: every proper descendant of `scope` matching the
descendant selector chain, in document order. -/
def selectChain (chain : List Sel) (scope : Node) : List Node :=
  (descendantsWithAnc scope).filterMap
    (fun p => if nodeMatchesChain chain p.1 p.2 then some p.1 else none)

/-- `scope.select_one(chain)`: the first match in document order, if any. -/
def selectOneChain (chain : List Sel) (scope : Node) : Option Node :=
  (selectChain chain scope).head?

/-! All text fragments of a subtree, in document order. -/

mutual
/-- Text fragments of one node's subtree, in document order. -/
def nodeStrings : Node → List String
  | .text s => [s]
  | .elem _ _ cs => nodeListStrings cs
def nodeListStrings : NodeList → List String
  | .nil => []
  | .cons n ns => nodeStrings n ++ nodeListStrings ns
end

/-- `node.get_text(strip=True)`: the concatenation of the stripped,
nonempty text fragments of the subtree. -/
def get_text_strip (n : Node) : String :=
  String.mk ((((nodeStrings n).map strStrip).filter
    (fun s => !s.data.isEmpty)).foldr (fun s acc => s.data ++ acc) [])

/-- Python `str.isdigit` restricted to ASCII digits. -/
def strIsdigit (s : String) : Bool :=
  !s.data.isEmpty && s.data.all Char.isDigit

/-- Python `int` on an all-digit string. -/
def toNatDigits (s : String) : Nat :=
  s.data.foldl (fun n c => n * 10 + (c.toNat - 48)) 0

/-! The selectors `main.py` uses. -/

def selDivTableResponsive : Sel := { tag := "div", classes := ["table-responsive"], attrsPresent := [] }

def selTableSRow : Sel := { tag := "table", classes := ["table", "s-row"], attrsPresent := [] }

def selTbody : Sel := { tag := "tbody", classes := [], attrsPresent := [] }

def selTr : Sel := { tag := "tr", classes := [], attrsPresent := [] }

def selTd : Sel := { tag := "td", classes := [], attrsPresent := [] }

def selAHref : Sel := { tag := "a", classes := [], attrsPresent := ["href"] }

def selUlPagination : Sel := { tag := "ul", classes := ["pagination"], attrsPresent := [] }

def selSpan : Sel := { tag := "span", classes := [], attrsPresent := [] }

/-! ### Listing parser -/

/-- The loop body of `parse_listing_for_items` for one table row `tr`:
collect its `td` descendants, skip the row if there are fewer than 5
(`continue`), take the first cell's stripped text as the registration
number (`tds[0].get_text(strip=True) or ""` then `.strip()`) and the first
`a[href]` inside the last cell as the view link (`tds[-1]`), skip the row
if either is missing, and append the pair with the link resolved against
the base URL. -/
def listingRowStep (base_url : String) (items : List (String × String)) (tr : Node) :
    List (String × String) :=
  let tds := selectChain [selTd] tr
  if tds.length < 5 then items
  else
    let reg_no := strStrip (get_text_strip (tds.headD (Node.text "")))
    match selectOneChain [selAHref] (tds.getLastD (Node.text "")) with
    | none => items
    | some view_link =>
        if reg_no = "" then items
        else
          items ++ [(reg_no, urljoin base_url ((getAttr (attrsOf view_link) "href").getD ""))]

/-- `parse_listing_for_items(html)` of `main.py`: locate the results tbody
via `select_one("div.table-responsive table.table.s-row tbody")` (no tbody:
warn and return `[]`); then run `listingRowStep` over its `tr` descendants
(`tbody.select("tr")`). -/
def parse_listing_for_items (base_url : String) (doc : Node) : List (String × String) :=
  match selectOneChain [selDivTableResponsive, selTableSRow, selTbody] doc with
  | none => []
  | some tbody => (selectChain [selTr] tbody).foldl (listingRowStep base_url) []

/-- `find_last_page_number(html)` of `main.py`: find the first
`ul.pagination`; collect the numeric labels of its `a[href]` descendants
(`find_all("a", href=True)`), append the numeric label of its first `span`
descendant if there is one (`find("span")`), and return the maximum, or
`none` when the list is empty or the `ul` is missing. -/
def find_last_page_number (doc : Node) : Option Nat :=
  match selectOneChain [selUlPagination] doc with
  | none => none
  | some ul =>
      let nums := (selectChain [selAHref] ul).filterMap (fun a =>
        let t := get_text_strip a
        if strIsdigit t then some (toNatDigits t) else none)
      let nums := match selectOneChain [selSpan] ul with
        | some sp =>
            let t := get_text_strip sp
            if strIsdigit t then nums ++ [toNatDigits t] else nums
        | none => nums
      nums.max?

/-! ### Page processor -/

/-- Python `dict` insertion `m[k] = v` on an insertion-ordered association
list: an existing key keeps its position and gets the new value, a new key
is appended. -/
def dictInsert (m : List (String × String)) (k v : String) : List (String × String) :=
  if m.any (fun p => p.1 == k) then
    m.map (fun p => if p.1 == k then (k, v) else p)
  else m ++ [(k, v)]

/-- The per-run environment: the startup inputs, the robots.txt fetch
outcome, which page files already exist in the output directory, and the
transport behaviour (per URL, per attempt number) for listing pages
(bodies modelled parsed) and detail pages (bodies raw strings). -/
structure CrawlEnv where
  base_url : String
  ua : String
  robots : RobotsFetchOutcome
  fileExists : Nat → Bool
  listingTransport : String → Nat → AttemptOutcome Node
  detailTransport : String → Nat → AttemptOutcome String

/-- `fetch_detail_html(session, detail_url)` of `main.py`: `polite_get`
with the detail retry budget; `none` unless the result is a 200 response,
else its body. -/
def fetch_detail_html (env : CrawlEnv) (detail_url : String) : Option String :=
  match (polite_get (env.detailTransport detail_url) MAX_DETAIL_RETRIES).result with
  | none => none
  | some resp => if resp.status ≠ 200 then none else some resp.text

/-- The detail loop body of `process_one_page` for one `(reg_no,
detail_url)` item: gate the detail path via robots (denial skips the
item), fetch the detail HTML, and insert it into the mapping when present
and nonempty (`if html:`). -/
def detailStep (env : CrawlEnv) (rp : RobotFileParser)
    (m : List (String × String)) (item : String × String) : List (String × String) :=
  let path := urlparsePath item.2
  if !(can_fetch rp env.ua path env.base_url) then m
  else
    match fetch_detail_html env item.2 with
    | none => m
    | some html => if html ≠ "" then dictInsert m item.1 html else m

/-- `process_one_page(session, rp, ua, page_index)` of `main.py`.  Returns
the success flag together with the mapping written by `save_page_json`
(`none` when no file was written).  Steps: robots gate on
`/home/DrugSearch`; listing fetch (failure or non-200 returns `False`
without persisting); parse items; run `detailStep` over them; finally save
the mapping and return `True`. -/
def process_one_page (env : CrawlEnv) (rp : RobotFileParser) (page_index : Nat) :
    Bool × Option (List (String × String)) :=
  if !(can_fetch rp env.ua "/home/DrugSearch" env.base_url) then (false, none)
  else
    match (polite_get (env.listingTransport (list_url env.base_url page_index)) MAX_LIST_RETRIES).result with
    | none => (false, none)
    | some resp =>
        if resp.status ≠ 200 then (false, none)
        else
          let items := parse_listing_for_items env.base_url resp.text
          (true, some (items.foldl (detailStep env rp) []))

/-! ### Checkpointed range runner -/

/-- The observable events of a run, in order: a listing fetch made only to
auto-detect the last page (`polite_get` on the listing URL of that page),
a checkpoint skip of an already-persisted page, and an invocation of the
page processor with its result.  The detect fetch and the page processor
are the only sites performing network activity in `run_range`. -/
inductive Ev where
  | detectFetch (page : Nat)
  | skip (page : Nat)
  | process (page : Nat) (ok : Bool)
deriving Repr, DecidableEq

/-- How a run ended: aborted at a startup robots check, aborted because the
auto-detection fetch of the start page failed, stopped early on the
consecutive-failure threshold, or ran through the whole range. -/
inductive RunOutcome where
  | abortRobotsSearch
  | abortRobotsResult
  | abortDetect
  | stoppedEarly
  | completed
deriving Repr, DecidableEq

/-- The page loop of `run_range` (source lines 290-305) over the remaining
page indices, carrying `consecutive_list_fails`: an existing file is
skipped, otherwise the page processor runs; a failure increments the
counter and stops the loop once it reaches
`STOP_ON_CONSECUTIVE_LIST_FAILS`, a success resets it to 0. -/
def runLoop (env : CrawlEnv) (rp : RobotFileParser) :
    List Nat → Nat → List Ev × RunOutcome
  | [], _ => ([], .completed)
  | p :: ps, c =>
    if env.fileExists p then
      let rest := runLoop env rp ps c
      (Ev.skip p :: rest.1, rest.2)
    else
      let ok := (process_one_page env rp p).1
      if ok then
        let rest := runLoop env rp ps 0
        (Ev.process p true :: rest.1, rest.2)
      else
        if STOP_ON_CONSECUTIVE_LIST_FAILS ≤ c + 1 then
          ([Ev.process p false], .stoppedEarly)
        else
          let rest := runLoop env rp ps (c + 1)
          (Ev.process p false :: rest.1, rest.2)

/-- Python `range(s, e + 1)`. -/
def pagesFromTo (s e : Nat) : List Nat :=
  List.range' s (e + 1 - s)

/-- The auto-detection branch of `run_range` (source lines 258-287, taken
when `end_page is None`): fetch the start page's listing once to detect
the last page (failure or non-200 ends the whole run with nothing
processed), fall back to `start_page` when no number is detected
(Python's `if not last:` also treats a detected `0` as no detection),
then handle the start page itself: skip it if its file exists, else
process it, updating the failure counter without a threshold check;
finally run the page loop from `start_page + 1` to the detected bound. -/
def runAutoDetect (env : CrawlEnv) (rp : RobotFileParser) (start_page : Nat) :
    List Ev × RunOutcome :=
  match (polite_get (env.listingTransport (list_url env.base_url start_page)) MAX_LIST_RETRIES).result with
  | none => ([Ev.detectFetch start_page], .abortDetect)
  | some resp =>
    if resp.status ≠ 200 then ([Ev.detectFetch start_page], .abortDetect)
    else
      let last := match find_last_page_number resp.text with
        | none => start_page
        | some 0 => start_page
        | some l => l
      if env.fileExists start_page then
        let rest := runLoop env rp (pagesFromTo (start_page + 1) last) 0
        (Ev.detectFetch start_page :: Ev.skip start_page :: rest.1, rest.2)
      else
        let ok := (process_one_page env rp start_page).1
        let c := if ok then 0 else 1
        let rest := runLoop env rp (pagesFromTo (start_page + 1) last) c
        (Ev.detectFetch start_page :: Ev.process start_page ok :: rest.1, rest.2)

/-- `run_range(start_page, end_page)` of `main.py`, returning the event
trace and how the run ended.  Startup: load robots.txt and check the two
policy paths (either denial aborts with no pages processed); then either
loop over the given range or enter the auto-detection branch. -/
def run_range (env : CrawlEnv) (start_page : Nat) (end_page : Option Nat) :
    List Ev × RunOutcome :=
  let rp := initRobotsParserPy env.robots
  if !(can_fetch rp env.ua "/home/DrugSearch" env.base_url) then
    ([], .abortRobotsSearch)
  else if !(can_fetch rp env.ua "/home/Result" env.base_url) then
    ([], .abortRobotsResult)
  else
    match end_page with
    | some e => runLoop env rp (pagesFromTo start_page e) 0
    | none => runAutoDetect env rp start_page

/-! ### Spec-side characterizations (for refinement statements)

These definitions follow the wording of the specification and are compared
with the source-derived definitions above. -/

/-- The spec's description of one row of the results table (section 4.3):
a row contributes a `(record_id, detail_locator)` pair iff it has at least
5 cells, a nonempty trimmed first-cell text, and an anchor with an `href`
in its last cell; the locator is resolved against the base URL. -/
def claimRowItem (base_url : String) (tr : Node) : Option (String × String) :=
  let tds := selectChain [selTd] tr
  if tds.length < 5 then none
  else
    let rid := strStrip (get_text_strip (tds.headD (Node.text "")))
    match selectOneChain [selAHref] (tds.getLastD (Node.text "")) with
    | none => none
    | some a =>
        if rid = "" then none
        else some (rid, urljoin base_url ((getAttr (attrsOf a) "href").getD ""))

/-- The spec's description of the fate of one item in Step 4 of
`process_page`: `none` when the policy denies the detail path or the
detail fetch fails or yields empty content, otherwise the record that is
inserted into the page mapping. -/
def specItemRecord (env : CrawlEnv) (rp : RobotFileParser) (item : String × String) :
    Option (String × String) :=
  if !(can_fetch rp env.ua (urlparsePath item.2) env.base_url) then none
  else
    match fetch_detail_html env item.2 with
    | none => none
    | some html => if html ≠ "" then some (item.1, html) else none

/-- The numbers `find_last_page_number` collects from a pagination `ul`:
the numeric labels of its `a[href]` descendants followed by the numeric
label of its first `span` descendant, if any. -/
def paginationNums (ul : Node) : List Nat :=
  let nums := (selectChain [selAHref] ul).filterMap (fun a =>
    let t := get_text_strip a
    if strIsdigit t then some (toNatDigits t) else none)
  match selectOneChain [selSpan] ul with
  | some sp =>
      let t := get_text_strip sp
      if strIsdigit t then nums ++ [toNatDigits t] else nums
  | none => nums

/-! ### Concrete instances (used by witnesses and counterexamples) -/

/-- A base URL for concrete runs. -/
def exBase : String := "https://example.com"

/-- A listing page with three rows: a well-formed one (`REG-1`), one with
only 4 cells, and one whose first cell is blank. -/
def exListingDoc : Node :=
  el "html" [] [
    el "div" [("class", "table-responsive")] [
      el "table" [("class", "table s-row")] [
        el "tbody" [] [
          el "tr" [] [
            el "td" [] [txt " REG-1 "], el "td" [] [txt "b"], el "td" [] [txt "c"],
            el "td" [] [txt "d"],
            el "td" [] [el "a" [("href", "/home/Result?drugId=1")] [txt "View"]]],
          el "tr" [] [
            el "td" [] [txt "REG-2"], el "td" [] [txt "b"], el "td" [] [txt "c"],
            el "td" [] [el "a" [("href", "/home/Result?drugId=2")] [txt "View"]]],
          el "tr" [] [
            el "td" [] [txt "  "], el "td" [] [txt "b"], el "td" [] [txt "c"],
            el "td" [] [txt "d"],
            el "td" [] [el "a" [("href", "/home/Result?drugId=3")] [txt "View"]]]]]]]

/-- A page whose pagination bar has links labeled 1, 2, 3 and a
current-page span labeled 2. -/
def exPagDoc : Node :=
  el "html" [] [
    el "ul" [("class", "pagination")] [
      el "li" [] [el "a" [("href", "?page=1")] [txt "1"]],
      el "li" [] [el "a" [("href", "?page=2")] [txt "2"]],
      el "li" [] [el "a" [("href", "?page=3")] [txt "3"]],
      el "li" [] [el "span" [] [txt "2"]]]]

/-- A pagination bar with no numeric labels at all. -/
def exPagDocNoNums : Node :=
  el "html" [] [
    el "ul" [("class", "pagination")] [
      el "li" [] [el "a" [("href", "?x")] [txt "next"]]]]

/-- Transport answering 503 on attempts 1 and 2 and 200 (body "ok") from
attempt 3 on. -/
def exTransport503 : Nat → AttemptOutcome String :=
  fun i => if i ≤ 2 then .resp { status := 503, text := "" } else .resp { status := 200, text := "ok" }

/-- Transport answering 500 on every attempt. -/
def exTransport500 : Nat → AttemptOutcome String :=
  fun _ => .resp { status := 500, text := "" }

/-- A run environment whose robots.txt allows everything, with no
pre-existing page files, a listing transport serving `exListingDoc` with
status 200, and a detail transport that serves `detail-1` for drug 1 and
fails (network error on every attempt) for every other URL. -/
def envTwoItems : CrawlEnv :=
  { base_url := exBase, ua := "UA", robots := .content (fun _ _ => true),
    fileExists := fun _ => false,
    listingTransport := fun _ _ => .resp { status := 200, text := exListingDoc },
    detailTransport := fun u _ =>
      if u = "https://example.com/home/Result?drugId=1" then
        .resp { status := 200, text := "detail-1" }
      else .netError }

/-- Like `envTwoItems` but every listing fetch fails at the network level,
so the page processor always fails. -/
def envAlwaysFail : CrawlEnv :=
  { envTwoItems with listingTransport := fun _ _ => .netError }

/-- Like `envAlwaysFail` but the robots.txt fetch raises a network error. -/
def envRobotsNetError : CrawlEnv :=
  { envAlwaysFail with robots := .netError }

/-- Like `envAlwaysFail` but every listing fetch yields status 404 with an
empty body. -/
def envListing404 : CrawlEnv :=
  { envAlwaysFail with listingTransport := fun _ _ => .resp { status := 404, text := el "html" [] [] } }

/-- An environment where the output file for page 1 already exists, the
listing transport serves `exPagDoc` (pagination up to 3) with status 200,
and details always fail. -/
def envCheckpoint : CrawlEnv :=
  { envTwoItems with
    fileExists := fun p => p == 1,
    listingTransport := fun _ _ => .resp { status := 200, text := exPagDoc } }

/-- The results tbody inside `exListingDoc` (the node its selector chain
locates). -/
def exTbody : Node :=
  el "tbody" [] [
    el "tr" [] [
      el "td" [] [txt " REG-1 "], el "td" [] [txt "b"], el "td" [] [txt "c"],
      el "td" [] [txt "d"],
      el "td" [] [el "a" [("href", "/home/Result?drugId=1")] [txt "View"]]],
    el "tr" [] [
      el "td" [] [txt "REG-2"], el "td" [] [txt "b"], el "td" [] [txt "c"],
      el "td" [] [el "a" [("href", "/home/Result?drugId=2")] [txt "View"]]],
    el "tr" [] [
      el "td" [] [txt "  "], el "td" [] [txt "b"], el "td" [] [txt "c"],
      el "td" [] [txt "d"],
      el "td" [] [el "a" [("href", "/home/Result?drugId=3")] [txt "View"]]]]

/-- The pagination `ul` inside `exPagDoc`. -/
def exPagUl : Node :=
  el "ul" [("class", "pagination")] [
    el "li" [] [el "a" [("href", "?page=1")] [txt "1"]],
    el "li" [] [el "a" [("href", "?page=2")] [txt "2"]],
    el "li" [] [el "a" [("href", "?page=3")] [txt "3"]],
    el "li" [] [el "span" [] [txt "2"]]]

/-- The pagination `ul` inside `exPagDocNoNums`. -/
def exPagUlNoNums : Node :=
  el "ul" [("class", "pagination")] [
    el "li" [] [el "a" [("href", "?x")] [txt "next"]]]

/-- The robots policy object of a run whose robots.txt parsed to an
allow-everything ruleset. -/
def exRpAllow : RobotFileParser :=
  initRobotsParserPy (RobotsFetchOutcome.content (fun _ _ => true))

/-! ### Theorems -/

/-! #### Transport lemmas -/

/-- If the first `j` attempts starting at attempt `a` are all transient and
attempt `a + j` yields a non-transient response, the attempt loop returns
that response after `j` backoff sleeps. -/
lemma politeGetAux_first_success {β : Type} (t : Nat → AttemptOutcome β)
    (resp : HttpResponse β) :
    ∀ (j a r : Nat), j < r →
      (∀ i, i < j → isTransientOutcome (t (a + i)) = true) →
      t (a + j) = .resp resp →
      isTransientOutcome (AttemptOutcome.resp resp : AttemptOutcome β) = false →
      politeGetAux t a r =
        { result := some resp, sleeps := expectedBackoffs a j, attempts := j + 1 } := by
  intro j
  induction j with
  | zero =>
      intro a r hr _ hresp hfin
      obtain ⟨r', rfl⟩ : ∃ r', r = r' + 1 := ⟨r - 1, by omega⟩
      rw [Nat.add_zero] at hresp
      simp only [isTransientOutcome, Bool.or_eq_false_iff, beq_eq_false_iff_ne,
        decide_eq_false_iff_not] at hfin
      simp only [politeGetAux, hresp, expectedBackoffs]
      rw [if_neg]
      rintro (h429 | h5xx)
      · exact hfin.1 h429
      · exact hfin.2 h5xx
  | succ j ih =>
      intro a r hr htrans hresp hfin
      obtain ⟨r', rfl⟩ : ∃ r', r = r' + 1 := ⟨r - 1, by omega⟩
      have h0 : isTransientOutcome (t a) = true := by
        have := htrans 0 (by omega)
        rwa [Nat.add_zero] at this
      have hshift : ∀ i, i < j → isTransientOutcome (t (a + 1 + i)) = true := by
        intro i hi
        have := htrans (i + 1) (by omega)
        rwa [show a + (i + 1) = a + 1 + i by omega] at this
      have hresp' : t (a + 1 + j) = .resp resp := by
        rwa [show a + 1 + j = a + (j + 1) by omega]
      have hrec := ih (a + 1) r' (by omega) hshift hresp' hfin
      cases ht : t a with
      | netError =>
          simp only [politeGetAux, ht, hrec, expectedBackoffs]
      | resp r0 =>
          rw [ht] at h0
          simp only [isTransientOutcome, Bool.or_eq_true, beq_iff_eq,
            decide_eq_true_eq] at h0
          simp only [politeGetAux, ht, expectedBackoffs]
          rw [if_pos h0, hrec]

/-- If every attempt in the window is transient, the attempt loop exhausts
its budget: no result, one backoff sleep per attempt. -/
lemma politeGetAux_all_transient {β : Type} (t : Nat → AttemptOutcome β) :
    ∀ (r a : Nat), (∀ i, i < r → isTransientOutcome (t (a + i)) = true) →
      politeGetAux t a r =
        { result := none, sleeps := expectedBackoffs a r, attempts := r } := by
  intro r
  induction r with
  | zero => intro a _; simp [politeGetAux, expectedBackoffs]
  | succ r ih =>
      intro a htrans
      have h0 : isTransientOutcome (t a) = true := by
        have := htrans 0 (by omega)
        rwa [Nat.add_zero] at this
      have hshift : ∀ i, i < r → isTransientOutcome (t (a + 1 + i)) = true := by
        intro i hi
        have := htrans (i + 1) (by omega)
        rwa [show a + (i + 1) = a + 1 + i by omega] at this
      have hrec := ih (a + 1) hshift
      cases ht : t a with
      | netError =>
          simp only [politeGetAux, ht, hrec, expectedBackoffs]
      | resp r0 =>
          rw [ht] at h0
          simp only [isTransientOutcome, Bool.or_eq_true, beq_iff_eq,
            decide_eq_true_eq] at h0
          simp only [politeGetAux, ht, expectedBackoffs]
          rw [if_pos h0, hrec]

/-- C4: every attempt yielding 429, a 5xx status or a network error sleeps
`backoff_base * attempt_number` and retries; the first attempt `k` with any
other status is returned immediately, so the call returns that response
after the backoff sleeps `backoff_base * 1, ..., backoff_base * (k-1)`.
(`expectedBackoffs 1 (k-1)` is exactly that list; the concrete
503/503/200 instance is in the witness.) -/
theorem polite_get_transient_backoff {β : Type} (t : Nat → AttemptOutcome β)
    (retries k : Nat) (resp : HttpResponse β)
    (h1 : 1 ≤ k) (h2 : k ≤ retries)
    (htrans : ∀ i, 1 ≤ i → i < k → isTransientOutcome (t i) = true)
    (hk : t k = .resp resp)
    (hfin : isTransientOutcome (AttemptOutcome.resp resp : AttemptOutcome β) = false) :
    polite_get t retries =
      { result := some resp, sleeps := expectedBackoffs 1 (k - 1), attempts := k } := by
  have := politeGetAux_first_success t resp (k - 1) 1 retries (by omega)
    (fun i hi => htrans (1 + i) (by omega) (by omega))
    (by rwa [show 1 + (k - 1) = k by omega]) hfin
  rw [polite_get, this, show k - 1 + 1 = k by omega]

/-- Witness for C4: a transport answering 503, 503, 200 makes `polite_get`
with budget 3 return the 200 response after exactly the two backoff sleeps
`backoff_base * 1` and `backoff_base * 2`. -/
theorem polite_get_transient_backoff_witness :
    polite_get exTransport503 3 =
      { result := some { status := 200, text := "ok" },
        sleeps := expectedBackoffs 1 2, attempts := 3 } ∧
    expectedBackoffs 1 2 = [backoffBase * 1, backoffBase * 2] :=
  ⟨polite_get_transient_backoff exTransport503 3 3 { status := 200, text := "ok" }
    (by decide) (by decide)
    (by intro i hi1 hi2; interval_cases i <;> decide)
    (by decide) (by decide),
   by norm_num [expectedBackoffs]⟩

/-- C5: if every attempt in the budget is transient (429, 5xx or network
error), `polite_get` returns no result (absent) after exactly
`retries` attempts. -/
theorem polite_get_exhaustion {β : Type} (t : Nat → AttemptOutcome β) (retries : Nat)
    (htrans : ∀ i, 1 ≤ i → i ≤ retries → isTransientOutcome (t i) = true) :
    polite_get t retries =
      { result := none, sleeps := expectedBackoffs 1 retries, attempts := retries } :=
  politeGetAux_all_transient t retries 1 (fun i hi => htrans (1 + i) (by omega) (by omega))

/-- Witness for C5: an always-500 transport with budget 3 yields no result
after exactly 3 attempts. -/
theorem polite_get_exhaustion_witness :
    polite_get exTransport500 3 =
      { result := none, sleeps := expectedBackoffs 1 3, attempts := 3 } :=
  polite_get_exhaustion exTransport500 3 (by intro i h1 h2; interval_cases i <;> decide)

/-! #### C1: robots.txt load failure -/

/-- C1 (code bug): when retrieving robots.txt raises a network-level error,
`init_robots_parser` catches the exception and returns the untouched
parser — whose CPython `can_fetch` then answers `False` for **every**
identity and path (the ruleset was never parsed), not `True` as the
fail-open contract requires; consequently `run_range`'s startup policy
checks fail and the whole run aborts with no page processed, for any
start/end range.  This contradicts the source's own comments ("Fail open
(assume allowed) if parser fails", "Proceeding cautiously."). -/
theorem robots_network_failure_fails_closed :
    (∀ ua path base_url,
      can_fetch (initRobotsParserPy RobotsFetchOutcome.netError) ua path base_url = false)
    ∧ (∀ s e, run_range envRobotsNetError s e = ([], RunOutcome.abortRobotsSearch)) := by
  constructor
  · intro ua path base_url
    simp [can_fetch, rpCanFetch, initRobotsParserPy, rpRead, freshRobotFileParser]
  · intro s e
    rfl

/-! #### C8: listing extraction -/

/-- One row step equals the spec's per-row extraction: append the row's
pair when it qualifies, leave the accumulator unchanged otherwise. -/
lemma listingRowStep_eq_claimRowItem (base_url : String)
    (items : List (String × String)) (tr : Node) :
    listingRowStep base_url items tr =
      match claimRowItem base_url tr with
      | none => items
      | some pr => items ++ [pr] := by
  unfold listingRowStep claimRowItem
  by_cases h5 : (selectChain [selTd] tr).length < 5
  · simp [h5]
  · simp only [h5, if_false]
    cases hsel : selectOneChain [selAHref] ((selectChain [selTd] tr).getLastD (Node.text "")) with
    | none => simp [hsel]
    | some a =>
        simp only [hsel]
        split_ifs <;> simp

/-- Folding the row step over the rows appends exactly the qualifying
rows' pairs, in row order. -/
lemma foldl_listingRowStep (base_url : String) :
    ∀ (rows : List Node) (acc : List (String × String)),
      rows.foldl (listingRowStep base_url) acc =
        acc ++ rows.filterMap (claimRowItem base_url) := by
  intro rows
  induction rows with
  | nil => intro acc; simp
  | cons tr rest ih =>
      intro acc
      rw [List.foldl_cons, listingRowStep_eq_claimRowItem]
      cases hg : claimRowItem base_url tr with
      | none => rw [ih acc, List.filterMap_cons, hg]
      | some pr => rw [ih (acc ++ [pr]), List.filterMap_cons, hg, List.append_assoc]; rfl

/-- C8: `parse_listing_for_items` returns, in table-row order, one
`(record_id, detail_locator)` pair per row with at least 5 cells, a
nonempty trimmed first-cell text and an `a[href]` in its last cell, the
locator resolved against the base URL (`claimRowItem` is exactly that
per-row description); rows missing any of these contribute nothing, and a
document without the results table yields `[]`. -/
theorem parse_listing_characterization (base_url : String) (doc : Node) :
    (selectOneChain [selDivTableResponsive, selTableSRow, selTbody] doc = none →
      parse_listing_for_items base_url doc = [])
    ∧ (∀ tbody, selectOneChain [selDivTableResponsive, selTableSRow, selTbody] doc = some tbody →
      parse_listing_for_items base_url doc =
        (selectChain [selTr] tbody).filterMap (claimRowItem base_url)) := by
  constructor
  · intro h
    simp [parse_listing_for_items, h]
  · intro tbody h
    simp [parse_listing_for_items, h, foldl_listingRowStep]

/-- Witness for C8: on the concrete listing page the well-formed row yields
`("REG-1", base ++ "/home/Result?drugId=1")`, while the 4-cell row and the
blank-first-cell row are skipped. -/
theorem parse_listing_characterization_witness :
    parse_listing_for_items exBase exListingDoc =
      [("REG-1", "https://example.com/home/Result?drugId=1")] := by
  rw [(parse_listing_characterization exBase exListingDoc).2 exTbody rfl]
  decide

/-! #### C9: upper-bound detection -/

/-- C9: `find_last_page_number` returns the maximum of the numbers
collected from the pagination control (the numeric labels of its
hyperlink anchors plus the numeric label of the non-link current-page
element, which is what `paginationNums` lists), and `none` when the
control is missing or carries no numbers. -/
theorem find_last_page_number_characterization (doc : Node) :
    (selectOneChain [selUlPagination] doc = none → find_last_page_number doc = none)
    ∧ (∀ ul, selectOneChain [selUlPagination] doc = some ul →
        (find_last_page_number doc = none ↔ paginationNums ul = [])
        ∧ ∀ m, find_last_page_number doc = some m →
            m ∈ paginationNums ul ∧ ∀ n ∈ paginationNums ul, n ≤ m) := by
  constructor
  · intro h
    simp [find_last_page_number, h]
  · intro ul h
    have hfl : find_last_page_number doc = (paginationNums ul).max? := by
      unfold find_last_page_number paginationNums
      rw [h]
    constructor
    · rw [hfl]
      exact List.max?_eq_none_iff
    · intro m hm
      rw [hfl] at hm
      rw [List.max?_eq_some_iff] at hm
      · exact hm
      · exact fun a => Nat.le_refl a
      · exact fun a b => max_choice a b
      · exact fun a b c => Nat.max_le

/-- Witness for C9: anchors labeled 1, 2, 3 with a current-page span
labeled 2 yield upper bound 3 (a number the control indeed carries), and a
control with no numeric labels yields `none`. -/
theorem find_last_page_number_characterization_witness :
    find_last_page_number exPagDoc = some 3
    ∧ 3 ∈ paginationNums exPagUl
    ∧ find_last_page_number exPagDocNoNums = none :=
  ⟨by decide,
   (((find_last_page_number_characterization exPagDoc).2 exPagUl rfl).2 3 (by decide)).1,
   ((find_last_page_number_characterization exPagDocNoNums).2 exPagUlNoNums rfl).1.mpr
     (by decide)⟩

/-! #### C6 and C7: the page processor -/

/-- C6: if the listing fetch yields no result or any status other than
200, `process_one_page` returns `False` and writes nothing. -/
theorem process_page_listing_failure (env : CrawlEnv) (rp : RobotFileParser) (page : Nat)
    (h : ∀ r, (polite_get (env.listingTransport (list_url env.base_url page)) MAX_LIST_RETRIES).result = some r →
      r.status ≠ 200) :
    process_one_page env rp page = (false, none) := by
  unfold process_one_page
  cases hcf : can_fetch rp env.ua "/home/DrugSearch" env.base_url with
  | false => simp [hcf]
  | true =>
      simp only [hcf, Bool.not_true, Bool.false_eq_true, if_false]
      cases hres : (polite_get (env.listingTransport (list_url env.base_url page)) MAX_LIST_RETRIES).result with
      | none => rfl
      | some r => simp [h r hres]

/-- Witness for C6: in `envListing404` every listing fetch completes with
status 404, and processing page 2 fails without persisting anything. -/
theorem process_page_listing_failure_witness :
    process_one_page envListing404 exRpAllow 2 = (false, none) :=
  process_page_listing_failure envListing404 exRpAllow 2
    (by
      intro r hr
      have hx : (polite_get (envListing404.listingTransport (list_url envListing404.base_url 2))
          MAX_LIST_RETRIES).result = some { status := 404, text := el "html" [] [] } := rfl
      rw [hx] at hr
      cases hr
      decide)

/-- A record produced by the spec's per-item step keeps the item's id as
its key. -/
lemma specItemRecord_fst (env : CrawlEnv) (rp : RobotFileParser)
    (it kv : String × String) (h : specItemRecord env rp it = some kv) :
    kv.1 = it.1 := by
  unfold specItemRecord at h
  split at h
  · exact absurd h (by simp)
  · split at h
    · exact absurd h (by simp)
    · split at h
      · cases h; rfl
      · exact absurd h (by simp)

/-- Inserting a fresh key into the page mapping appends it. -/
lemma dictInsert_of_not_mem (m : List (String × String)) (k v : String)
    (h : k ∉ m.map Prod.fst) : dictInsert m k v = m ++ [(k, v)] := by
  unfold dictInsert
  rw [if_neg]
  simp only [List.any_eq_true, beq_iff_eq, not_exists, not_and]
  intro p hp hk
  exact h (List.mem_map.mpr ⟨p, hp, hk⟩)

/-- The detail loop body equals the spec's per-item description followed by
a dictionary insert. -/
lemma detailStep_eq_specItemRecord (env : CrawlEnv) (rp : RobotFileParser)
    (m : List (String × String)) (item : String × String) :
    detailStep env rp m item =
      match specItemRecord env rp item with
      | none => m
      | some kv => dictInsert m kv.1 kv.2 := by
  unfold detailStep specItemRecord
  cases hcf : can_fetch rp env.ua (urlparsePath item.2) env.base_url with
  | false => simp [hcf]
  | true =>
      simp only [hcf, Bool.not_true, Bool.false_eq_true, if_false]
      cases hf : fetch_detail_html env item.2 with
      | none => simp
      | some html => by_cases hh : html = "" <;> simp [hh]

/-- Under distinct record ids, folding the detail step over the items
builds exactly the filter-map of the spec's per-item description, in item
order. -/
lemma foldl_detailStep_eq_filterMap (env : CrawlEnv) (rp : RobotFileParser) :
    ∀ (items m : List (String × String)),
      (items.map Prod.fst).Nodup →
      (∀ k, k ∈ m.map Prod.fst → k ∉ items.map Prod.fst) →
      items.foldl (detailStep env rp) m = m ++ items.filterMap (specItemRecord env rp) := by
  intro items
  induction items with
  | nil => intro m _ _; simp
  | cons it rest ih =>
      intro m hnodup hdisj
      have hnd' : (rest.map Prod.fst).Nodup := by
        rw [List.map_cons] at hnodup
        exact hnodup.of_cons
      have hnotrest : it.1 ∉ rest.map Prod.fst := by
        rw [List.map_cons] at hnodup
        exact (List.nodup_cons.mp hnodup).1
      rw [List.foldl_cons, detailStep_eq_specItemRecord]
      cases hg : specItemRecord env rp it with
      | none =>
          have hdisj' : ∀ k, k ∈ m.map Prod.fst → k ∉ rest.map Prod.fst := by
            intro k hk hk'
            exact hdisj k hk (by simp [hk'])
          rw [ih m hnd' hdisj', List.filterMap_cons, hg]
      | some kv =>
          have hkv1 := specItemRecord_fst env rp it kv hg
          have hnotm : kv.1 ∉ m.map Prod.fst := by
            intro hk
            exact hdisj kv.1 hk (by simp [hkv1])
          have hstep : (match some kv with
              | none => m
              | some kv => dictInsert m kv.1 kv.2) = dictInsert m kv.1 kv.2 := rfl
          rw [hstep, dictInsert_of_not_mem m kv.1 kv.2 hnotm]
          have hdisj' : ∀ k, k ∈ (m ++ [(kv.1, kv.2)]).map Prod.fst →
              k ∉ rest.map Prod.fst := by
            intro k hk
            rw [List.map_append, List.mem_append] at hk
            rcases hk with hk | hk
            · intro hk'
              exact hdisj k hk (by simp [hk'])
            · simp only [List.map_cons, List.map_nil, List.mem_singleton] at hk
              subst hk
              rw [hkv1]
              exact hnotrest
          rw [ih (m ++ [(kv.1, kv.2)]) hnd' hdisj', List.filterMap_cons, hg,
            List.append_assoc]
          rfl

/-- C7: when the listing path is allowed and its fetch completes with
status 200, `process_one_page` walks the extracted items in order; a
policy denial skips the item, a failed or empty detail fetch omits the
record, a 200-with-content detail fetch inserts it (`specItemRecord` is
exactly that per-item description); the resulting mapping — possibly
empty — is persisted and the call returns `True` regardless of
detail-level failures.  (Distinct record ids, the spec's uniqueness
assumption, make the Python dict the plain ordered association list.) -/
theorem process_page_detail_level (env : CrawlEnv) (rp : RobotFileParser) (page : Nat)
    (resp : HttpResponse Node)
    (hallow : can_fetch rp env.ua "/home/DrugSearch" env.base_url = true)
    (hresp : (polite_get (env.listingTransport (list_url env.base_url page)) MAX_LIST_RETRIES).result = some resp)
    (h200 : resp.status = 200)
    (hnodup : ((parse_listing_for_items env.base_url resp.text).map Prod.fst).Nodup) :
    process_one_page env rp page =
      (true, some ((parse_listing_for_items env.base_url resp.text).filterMap
        (specItemRecord env rp))) := by
  unfold process_one_page
  simp only [hallow, Bool.not_true, Bool.false_eq_true, if_false, hresp, h200]
  simp only [ne_eq, not_true_eq_false, if_false, reduceIte]
  rw [foldl_detailStep_eq_filterMap env rp _ [] hnodup (by simp)]
  rfl

/-- Witness for C7 (the spec's end-to-end instance): a 200 listing with
two extractable rows, where the detail fetch succeeds for drug 1 and
fails for drug 2, persists a one-entry mapping and still succeeds.
(Note `exListingDoc`'s second row has only 4 cells, so the extracted
items are REG-1 only; `envTwoItems`' detail transport serves only
drug 1.) -/
theorem process_page_detail_level_witness :
    process_one_page envTwoItems exRpAllow 1 = (true, some [("REG-1", "detail-1")]) := by
  rw [process_page_detail_level envTwoItems exRpAllow 1
    { status := 200, text := exListingDoc } (by decide) rfl rfl (by decide)]
  decide

/-! #### C2, C3, C10: the range runner -/

/-- Every event the page loop emits concerns a page of its list: a
checkpoint skip of a page whose file exists, or a processor invocation for
a page whose file does not exist.  In particular the loop never fetches
for bound detection and never invokes the processor on a checkpointed
page. -/
lemma runLoop_events (env : CrawlEnv) (rp : RobotFileParser) :
    ∀ (ps : List Nat) (c : Nat) (e : Ev), e ∈ (runLoop env rp ps c).1 →
      ∃ p, p ∈ ps ∧
        ((e = Ev.skip p ∧ env.fileExists p = true)
          ∨ (∃ ok, e = Ev.process p ok ∧ env.fileExists p = false)) := by
  intro ps
  induction ps with
  | nil =>
      intro c e he
      simp [runLoop] at he
  | cons q qs ih =>
      intro c e he
      cases hq : env.fileExists q with
      | true =>
          simp only [runLoop, hq, if_true] at he
          rcases List.mem_cons.mp he with rfl | he'
          · exact ⟨q, List.mem_cons_self q qs, Or.inl ⟨rfl, hq⟩⟩
          · obtain ⟨p, hp, hshape⟩ := ih c e he'
            exact ⟨p, List.mem_cons_of_mem q hp, hshape⟩
      | false =>
          simp only [runLoop, hq, Bool.false_eq_true, if_false] at he
          cases hok : (process_one_page env rp q).1 with
          | true =>
              simp only [hok, if_true] at he
              rcases List.mem_cons.mp he with rfl | he'
              · exact ⟨q, List.mem_cons_self q qs, Or.inr ⟨true, rfl, hq⟩⟩
              · obtain ⟨p, hp, hshape⟩ := ih 0 e he'
                exact ⟨p, List.mem_cons_of_mem q hp, hshape⟩
          | false =>
              simp only [hok, Bool.false_eq_true, if_false] at he
              by_cases hth : STOP_ON_CONSECUTIVE_LIST_FAILS ≤ c + 1
              · rw [if_pos hth] at he
                simp only [List.mem_singleton] at he
                exact ⟨q, List.mem_cons_self q qs, Or.inr ⟨false, he, hq⟩⟩
              · rw [if_neg hth] at he
                rcases List.mem_cons.mp he with rfl | he'
                · exact ⟨q, List.mem_cons_self q qs, Or.inr ⟨false, rfl, hq⟩⟩
                · obtain ⟨p, hp, hshape⟩ := ih (c + 1) e he'
                  exact ⟨p, List.mem_cons_of_mem q hp, hshape⟩

/-- Every event of the auto-detection branch is the single detection fetch
of the start page, or a checkpoint skip / processor invocation consistent
with the existence of the page's file. -/
lemma runAutoDetect_events (env : CrawlEnv) (rp : RobotFileParser) (s : Nat) (e : Ev)
    (hmem : e ∈ (runAutoDetect env rp s).1) :
    e = Ev.detectFetch s
    ∨ ∃ p, (e = Ev.skip p ∧ env.fileExists p = true)
        ∨ (∃ ok, e = Ev.process p ok ∧ env.fileExists p = false) := by
  unfold runAutoDetect at hmem
  split at hmem
  · simp only [List.mem_singleton] at hmem
    exact Or.inl hmem
  · split at hmem
    · simp only [List.mem_singleton] at hmem
      exact Or.inl hmem
    · -- status 200: split on the detected bound, then on the start page's file
      split at hmem
      all_goals
        split at hmem
        case isTrue hfe =>
          simp only [List.mem_cons] at hmem
          rcases hmem with rfl | rfl | hmem'
          · exact Or.inl rfl
          · exact Or.inr ⟨s, Or.inl ⟨rfl, hfe⟩⟩
          · obtain ⟨p, _, hshape⟩ := runLoop_events env rp _ _ e hmem'
            exact Or.inr ⟨p, hshape⟩
        case isFalse hfe =>
          simp only [List.mem_cons] at hmem
          rcases hmem with rfl | rfl | hmem'
          · exact Or.inl rfl
          · exact Or.inr ⟨s, Or.inr ⟨_, rfl, by simpa using hfe⟩⟩
          · obtain ⟨p, _, hshape⟩ := runLoop_events env rp _ _ e hmem'
            exact Or.inr ⟨p, hshape⟩

/-- Every event of a full run is either the single auto-detection fetch of
the start page (only when `end_page` is unspecified), a checkpoint skip of
an existing page, or a processor invocation for a non-existing page. -/
lemma run_range_events (env : CrawlEnv) (s : Nat) (e? : Option Nat) (e : Ev)
    (hmem : e ∈ (run_range env s e?).1) :
    (e? = none ∧ e = Ev.detectFetch s)
    ∨ (∃ p, (e = Ev.skip p ∧ env.fileExists p = true)
        ∨ (∃ ok, e = Ev.process p ok ∧ env.fileExists p = false)) := by
  unfold run_range at hmem
  cases h1 : can_fetch (initRobotsParserPy env.robots) env.ua "/home/DrugSearch" env.base_url with
  | false => simp [h1] at hmem
  | true =>
      cases h2 : can_fetch (initRobotsParserPy env.robots) env.ua "/home/Result" env.base_url with
      | false => simp [h1, h2] at hmem
      | true =>
          simp only [h1, h2, Bool.not_true, Bool.false_eq_true, if_false] at hmem
          cases e? with
          | some e' =>
              obtain ⟨p, _, hshape⟩ := runLoop_events env _ _ _ e hmem
              exact Or.inr ⟨p, hshape⟩
          | none =>
              rcases runAutoDetect_events env _ s e hmem with h | ⟨p, hshape⟩
              · exact Or.inl ⟨rfl, h⟩
              · exact Or.inr ⟨p, hshape⟩

/-- C2 (amended): for every page whose output file already exists, the
runner never invokes the Page Processor — in either mode, for every page
of the range including the start page — and the only other event that can
concern such a page is its checkpoint-skip log or, exclusively in
auto-detect mode and exclusively for the start page, the single
bound-detection listing fetch (the detection fetch happens before the
existence check, so that one network access is not suppressed by the
checkpoint). -/
theorem checkpoint_skip_no_processing (env : CrawlEnv) (s : Nat) (e? : Option Nat)
    (p : Nat) (hp : env.fileExists p = true) :
    (∀ ok, Ev.process p ok ∉ (run_range env s e?).1)
    ∧ (Ev.detectFetch p ∈ (run_range env s e?).1 → e? = none ∧ p = s) := by
  constructor
  · intro ok hmem
    rcases run_range_events env s e? _ hmem with ⟨_, he⟩ | ⟨q, hshape⟩
    · simp at he
    · rcases hshape with ⟨he, _⟩ | ⟨ok', he, hq⟩
      · simp at he
      · obtain ⟨rfl, -⟩ := Ev.process.inj he
        rw [hp] at hq
        exact Bool.true_eq_false.mp hq
  · intro hmem
    rcases run_range_events env s e? _ hmem with ⟨hnone, he⟩ | ⟨q, hshape⟩
    · exact ⟨hnone, Ev.detectFetch.inj he⟩
    · rcases hshape with ⟨he, _⟩ | ⟨ok', he, _⟩ <;> simp at he

/-- Counterexample to C2 as stated: in auto-detect mode with the output
file for the start page already present, the runner still performs the
bound-detection listing fetch of that page (`Ev.detectFetch 1` marks the
`polite_get` call on page 1's listing URL), i.e. network activity does
occur for a page whose output unit exists. -/
theorem checkpoint_skip_counterexample :
    envCheckpoint.fileExists 1 = true
    ∧ Ev.detectFetch 1 ∈ (run_range envCheckpoint 1 none).1 := by
  constructor
  · decide
  · decide

/-- Witness for the amended C2: in that same run the Page Processor is
never invoked for the checkpointed page 1. -/
theorem checkpoint_skip_no_processing_witness :
    Ev.process 1 true ∉ (run_range envCheckpoint 1 none).1 :=
  (checkpoint_skip_no_processing envCheckpoint 1 none 1 (by decide)).1 true

/-- C3: the loop counter of the runner increments on each Page Processor
failure, resets to 0 on each success, and reaching the threshold
(`STOP_ON_CONSECUTIVE_LIST_FAILS = 5`) stops the loop by returning
normally (`RunOutcome.stoppedEarly`, not an exception), emitting no
further events (already-persisted pages are untouched — the model never
deletes); in particular an always-failing processor over the 10-page range
1..10 attempts exactly pages 1, 2, 3, 4, 5 in strictly increasing order
and stops. -/
theorem consecutive_failure_stop (env : CrawlEnv) (rp : RobotFileParser)
    (p : Nat) (ps : List Nat) (c : Nat) (hfe : env.fileExists p = false) :
    ((process_one_page env rp p).1 = true →
      runLoop env rp (p :: ps) c =
        (Ev.process p true :: (runLoop env rp ps 0).1, (runLoop env rp ps 0).2))
    ∧ ((process_one_page env rp p).1 = false → c + 1 < STOP_ON_CONSECUTIVE_LIST_FAILS →
      runLoop env rp (p :: ps) c =
        (Ev.process p false :: (runLoop env rp ps (c + 1)).1, (runLoop env rp ps (c + 1)).2))
    ∧ ((process_one_page env rp p).1 = false → STOP_ON_CONSECUTIVE_LIST_FAILS ≤ c + 1 →
      runLoop env rp (p :: ps) c = ([Ev.process p false], RunOutcome.stoppedEarly))
    ∧ run_range envAlwaysFail 1 (some 10) =
        ([Ev.process 1 false, Ev.process 2 false, Ev.process 3 false,
          Ev.process 4 false, Ev.process 5 false], RunOutcome.stoppedEarly) := by
  refine ⟨?_, ?_, ?_, by decide⟩
  · intro hok
    simp [runLoop, hfe, hok]
  · intro hok hlt
    simp [runLoop, hfe, hok, Nat.not_le.mpr hlt]
  · intro hok hge
    simp [runLoop, hfe, hok, hge]

/-- Witness for C3: with the always-failing environment, a failure at
counter value 4 reaches the threshold and stops the loop at once. -/
theorem consecutive_failure_stop_witness :
    runLoop envAlwaysFail exRpAllow [2, 3] 4 =
      ([Ev.process 2 false], RunOutcome.stoppedEarly) :=
  (consecutive_failure_stop envAlwaysFail exRpAllow 2 [3] 4 (by decide)).2.2.1
    (by decide) (by decide)

/-- C10: in auto-detect mode, if the detection fetch of the start page
yields no result or a status other than 200, the whole run ends at once
with only that fetch in its trace: no page is skipped or processed, no
output is written, and the failure counter and its threshold are never
consulted. -/
theorem autodetect_start_failure (env : CrawlEnv) (s : Nat)
    (h1 : can_fetch (initRobotsParserPy env.robots) env.ua "/home/DrugSearch" env.base_url = true)
    (h2 : can_fetch (initRobotsParserPy env.robots) env.ua "/home/Result" env.base_url = true)
    (hd : ∀ r, (polite_get (env.listingTransport (list_url env.base_url s)) MAX_LIST_RETRIES).result = some r →
      r.status ≠ 200) :
    run_range env s none = ([Ev.detectFetch s], RunOutcome.abortDetect) := by
  unfold run_range runAutoDetect
  simp only [h1, h2, Bool.not_true, Bool.false_eq_true, if_false]
  cases hres : (polite_get (env.listingTransport (list_url env.base_url s)) MAX_LIST_RETRIES).result with
  | none => rfl
  | some r =>
      simp [hd r hres]

/-- Witness for C10: with every listing fetch completing as 404, the run
in auto-detect mode ends after the single detection fetch of page 1. -/
theorem autodetect_start_failure_witness :
    run_range envListing404 1 none = ([Ev.detectFetch 1], RunOutcome.abortDetect) :=
  autodetect_start_failure envListing404 1 (by decide) (by decide)
    (by
      intro r hr
      have hx : (polite_get (envListing404.listingTransport (list_url envListing404.base_url 1))
          MAX_LIST_RETRIES).result = some { status := 404, text := el "html" [] [] } := rfl
      rw [hx] at hr
      cases hr
      decide)
